import Mathlib

/-!
Verification of the analytics and caching engine of the financial MCP server
(`financial_mcp_server.py`), as a shallow embedding in Lean 4.

Conventions of the embedding:
* Python floats are modelled as rationals (`ℚ`), so all arithmetic is exact.
* A price series (`df` with its `Close` column) is a `List ℚ` of closing prices,
  oldest first; `df.empty` becomes `List.isEmpty`.
* Python dicts are association lists with lookup on the first matching key.
* Code that can raise is modelled with `Except`; code that cannot is a plain
  function.
* External library behavior (`yfinance`, `pandas_ta`) is modelled explicitly:
  `yfinance` as an oracle (`Source`) supplied as a parameter, `pandas_ta`
  functions by faithful rational reimplementation of the library code
  (pandas_ta 0.3.x), including its `verify_series` guard that yields `None`
  for series shorter than the indicator length.
-/

namespace Financial

/-- Python's built-in `round` at a given power of ten: round half to even
(banker's rounding), here on the exact rational value of the argument. -/
def roundHalfEven (q : ℚ) : ℤ :=
  if q - ⌊q⌋ < 1/2 then ⌊q⌋
  else if 1/2 < q - ⌊q⌋ then ⌊q⌋ + 1
  else if ⌊q⌋ % 2 = 0 then ⌊q⌋ else ⌊q⌋ + 1

/-- Python `round(q, 2)`: round to two decimal places, half to even. -/
def round2 (q : ℚ) : ℚ := (roundHalfEven (q * 100) : ℚ) / 100

/-- Lookup in an association list modelling a Python dict: first matching key. -/
def dictGet (h : List (String × ℚ)) (t : String) : Option ℚ :=
  match h with
  | [] => none
  | (k, v) :: rest => if k = t then some v else dictGet rest t

/-- Python `holdings.get(ticker, 0)`. -/
def pyGet (h : List (String × ℚ)) (t : String) : ℚ := (dictGet h t).getD 0

/-! ## Indicator engine -/

/-- Exponentially weighted mean with `adjust=True` (pandas `Series.ewm(...).mean()`):
entry `t` of the output is `Σ_i (1-α)^i x_(t-i) / Σ_i (1-α)^i`, computed with the
usual numerator/denominator recurrences. -/
def ewmAdjustedGo (alpha : ℚ) : List ℚ → ℚ → ℚ → List ℚ
  | [], _, _ => []
  | x :: rest, num, den =>
      let num' := x + (1 - alpha) * num
      let den' := 1 + (1 - alpha) * den
      num' / den' :: ewmAdjustedGo alpha rest num' den'

/-- Exponentially weighted mean with `adjust=True`, see `ewmAdjustedGo`. -/
def ewmAdjusted (alpha : ℚ) (xs : List ℚ) : List ℚ := ewmAdjustedGo alpha xs 0 0

/-- pandas_ta `rsi(close, length)` (pandas_ta 0.3.x): normalizes a nonpositive
length to the default 14, and its `verify_series(close, length)` returns `None`
(`none` here) whenever the series holds fewer than `length` bars; otherwise the
Wilder RSI series `100 * posAvg / (posAvg + negAvg)` over the one-bar price
differences, with the averages taken by exponentially weighted means with
`alpha = 1/length`. A zero denominator (no movement at all) is pandas NaN,
rendered here as 0; no claim depends on that value. -/
def ta_rsi (close : List ℚ) (length0 : Nat) : Option (List ℚ) :=
  let length := if 0 < length0 then length0 else 14
  if close.length < length then none
  else
    let diffs := (close.zip close.tail).map fun p => p.2 - p.1
    let positive := diffs.map fun d => max d 0
    let negative := diffs.map fun d => max (-d) 0
    let posAvg := ewmAdjusted (1 / length) positive
    let negAvg := ewmAdjusted (1 / length) negative
    some ((posAvg.zip negAvg).map fun p =>
      if p.1 + p.2 = 0 then 0 else 100 * p.1 / (p.1 + p.2))

/-- `calcola_rsi(df, periodo)`: `rsi = ta.rsi(df['Close'], length=periodo);
return float(rsi.iloc[-1]) if not rsi.empty else 0.0`. When `ta.rsi` returns
`None` (series shorter than `periodo`), the attribute access `rsi.empty` on
`None` raises `AttributeError`, modelled as the `.error` case. -/
def calcola_rsi (close : List ℚ) (periodo : Nat) : Except String ℚ :=
  match ta_rsi close periodo with
  | none => .error "AttributeError"
  | some rsi => if !rsi.isEmpty then .ok (rsi.getLastD 0) else .ok 0

/-- The rolling mean and rolling standard deviation underlying one row of
`ta.bbands(close, length)`. The bands are `media ± 2 * sigma`; `sigma` is a
square root computed by pandas, hence nonnegative (carried as a hypothesis in
the theorems, not baked into the data). -/
structure BBands where
  media : ℚ
  sigma : ℚ

/-- Upper band `BBU_{length}_2.0`: mean plus two standard deviations. -/
def BBands.bbu (bb : BBands) : ℚ := bb.media + 2 * bb.sigma

/-- Lower band `BBL_{length}_2.0`: mean minus two standard deviations. -/
def BBands.bbl (bb : BBands) : ℚ := bb.media - 2 * bb.sigma

/-- Result dict of `calcola_bollinger_bands`. -/
structure BollingerOut where
  posizione_percentuale : ℚ
  superiore : ℚ
  inferiore : ℚ
  deriving DecidableEq

/-- `calcola_bollinger_bands(df, periodo)`: when `ta.bbands` yields no data
(`None or empty`) return the all-zero dict; otherwise
`posizione = ((prezzo - inferiore) / (superiore - inferiore)) * 100 if
superiore != inferiore else 50.0`, packaged with the two bands. `prezzo` is the
last close, and `bb` carries the last row of the bands frame. -/
def calcola_bollinger_bands (prezzo : ℚ) (bb : Option BBands) : BollingerOut :=
  match bb with
  | none => ⟨0, 0, 0⟩
  | some b =>
      let superiore := b.bbu
      let inferiore := b.bbl
      let posizione :=
        if superiore ≠ inferiore then ((prezzo - inferiore) / (superiore - inferiore)) * 100
        else 50
      ⟨posizione, superiore, inferiore⟩

/-- `df['Close'].rolling(n).mean().iloc[-1]`: the mean of the last `n` closes. -/
def rollingMeanLast (closes : List ℚ) (n : Nat) : ℚ :=
  ((closes.reverse.take n).sum) / n

/-- Result dict of `analisi_trend`. -/
structure TrendOut where
  trend : String
  prezzo : ℚ
  ma_50 : ℚ
  ma_200 : ℚ
  deriving DecidableEq

/-- `analisi_trend(df)`: last close against the 50- and 200-bar rolling means,
classified by the exact `if/elif/elif/else` chain of the source. -/
def analisi_trend (closes : List ℚ) : TrendOut :=
  let prezzo := closes.getLastD 0
  let ma_50 := rollingMeanLast closes 50
  let ma_200 := rollingMeanLast closes 200
  let trend :=
    if prezzo > ma_50 ∧ ma_50 > ma_200 then "Rialzista Forte"
    else if prezzo > ma_50 then "Rialzista"
    else if prezzo < ma_50 ∧ ma_50 < ma_200 then "Ribassista Forte"
    else "Ribassista"
  ⟨trend, prezzo, ma_50, ma_200⟩

/-! ## Portfolio analytics (valuta_portafoglio, lines 241-261) -/

/-- `herfindahl = sum((p/100)**2 for p in holdings.values())`. -/
def herfindahl (pesi : List ℚ) : ℚ := (pesi.map fun p => (p / 100) ^ 2).sum

/-- `n_effettivo = 1 / herfindahl if herfindahl > 0 else 0`. -/
def n_effettivo (pesi : List ℚ) : ℚ :=
  if 0 < herfindahl pesi then 1 / herfindahl pesi else 0

/-- Reported metric `"numero_effettivo_asset": round(n_effettivo, 2)`. -/
def numero_effettivo_asset (pesi : List ℚ) : ℚ := round2 (n_effettivo pesi)

/-- Reported metric `"diversificazione_score": round((n_effettivo / len(holdings)) * 100, 2)`;
the length of `pesi` is `len(holdings)`. -/
def diversificazione_score (pesi : List ℚ) : ℚ :=
  round2 (n_effettivo pesi / pesi.length * 100)

/-! ## Formal portfolio creation (crea_portafoglio) -/

/-- The structured record returned by `crea_portafoglio`: the fixed fields
`tipo = "portfolio"` and `versione = "1.0"`, the creation timestamp (threaded in
as a parameter standing for `datetime.now().isoformat()`), the holdings and
metadata, and the flattened `validazione` summary. -/
structure Portafoglio where
  nome : String
  tipo : String
  versione : String
  data_creazione : String
  holdings : List (String × ℚ)
  meta : List (String × String)
  percentuale_totale : ℚ
  numero_asset : Nat
  asset_validi : List String
  deriving DecidableEq

/-- `crea_portafoglio(nome, holdings, meta=None)`: raises `ValueError` when the
name is empty (`if not nome`), when the holdings dict is empty
(`if not holdings`), or when `abs(sum(holdings.values()) - 100.0) > 0.1`, the
last message quoting the actual sum (rendered by `toString` on the exact
rational); otherwise returns the structured record. The function touches no
global state. -/
def crea_portafoglio (now : String) (nome : String) (holdings : List (String × ℚ))
    (meta : Option (List (String × String))) : Except String Portafoglio :=
  if nome = "" then .error "Il nome del portafoglio e obbligatorio"
  else if holdings = [] then .error "Il portafoglio deve contenere almeno un asset"
  else
    let totale := (holdings.map Prod.snd).sum
    if 1/10 < |totale - 100| then
      .error ("Le percentuali degli asset devono sommare a 100%, attuale: " ++
        toString totale ++ "%")
    else
      .ok ⟨nome, "portfolio", "1.0", now, holdings, meta.getD [], totale,
        holdings.length, holdings.map Prod.fst⟩

/-! ## Rebalancer (bilancia_portafoglio) -/

/-- One entry of `operazioni_suggerite`. -/
structure Operazione where
  ticker : String
  azione : String
  percentuale : ℚ
  priorita : String
  deriving DecidableEq

/-- The `analisi` summary dict of `bilancia_portafoglio`. -/
structure Analisi where
  numero_operazioni : Nat
  drift_totale : ℚ
  necessita_ribilanciamento : Bool
  costo_stimato_commissioni : Nat
  consiglio : String
  deriving DecidableEq

/-- The full result dict of `bilancia_portafoglio`. -/
structure Risultato where
  portafoglio_corrente : List (String × ℚ)
  target_allocation : List (String × ℚ)
  operazioni_suggerite : List Operazione
  nuova_allocazione : List (String × ℚ)
  analisi : Analisi
  deriving DecidableEq

/-- Python float division, which raises `ZeroDivisionError` on a zero divisor. -/
def pyDiv (a b : ℚ) : Except String ℚ :=
  if b = 0 then .error "ZeroDivisionError" else .ok (a / b)

/-- The dict comprehension
`{ticker: 100.0 / n_assets for ticker in holdings_correnti.keys()}` with
`n_assets = len(holdings_correnti)`: the division is evaluated once per
iteration of the comprehension, so it is never evaluated when the dict is
empty. -/
def sintesiTarget (holdings_correnti : List (String × ℚ)) :
    Except String (List (String × ℚ)) :=
  let n_assets : ℚ := holdings_correnti.length
  holdings_correnti.mapM fun p => do
    let q ← pyDiv 100 n_assets
    pure (p.1, q)

/-- `set(list(holdings_correnti.keys()) + list(target_allocation.keys()))`:
the union of the two key sets (as a duplicate-free list; the iteration order of
a Python set is unspecified). -/
def unione (correnti target : List (String × ℚ)) : List String :=
  (correnti.map Prod.fst ++ target.map Prod.fst).dedup

/-- The `differenze` dict: for each ticker of the union,
`diff = target.get(t, 0) - correnti.get(t, 0)`, kept only when `abs(diff) > 1.0`. -/
def differenze (correnti target : List (String × ℚ)) : List (String × ℚ) :=
  (unione correnti target).filterMap fun t =>
    let diff := pyGet target t - pyGet correnti t
    if 1 < |diff| then some (t, diff) else none

/-- `sorted(differenze.items(), key=lambda x: abs(x[1]), reverse=True)`:
a stable sort by descending absolute drift. -/
def ordinaDifferenze (d : List (String × ℚ)) : List (String × ℚ) :=
  d.insertionSort fun a b => |b.2| ≤ |a.2|

/-- The body of the emission loop of `bilancia_portafoglio`: a BUY
(`"ACQUISTA"`) of `round(diff, 2)` percent when `diff > 0`, otherwise a SELL
(`"VENDI"`) of `round(abs(diff), 2)` percent, with priority
`"Alta" if abs(diff) > 10 else "Media" if abs(diff) > 5 else "Bassa"`. -/
def mkOperazione (ticker : String) (diff : ℚ) : Operazione :=
  if 0 < diff then
    ⟨ticker, "ACQUISTA", round2 diff,
      if 10 < |diff| then "Alta" else if 5 < |diff| then "Media" else "Bassa"⟩
  else
    ⟨ticker, "VENDI", round2 |diff|,
      if 10 < |diff| then "Alta" else if 5 < |diff| then "Media" else "Bassa"⟩

/-- The body of `bilancia_portafoglio` once the target allocation is resolved
(lines 365-403 of the source): the drift dict, one operation per remaining
ticker sorted by descending absolute drift, `nuova_allocazione = target`, and
the `analisi` summary (`drift_totale = sum(abs(d) for d in
differenze.values())`, reported rounded to two decimals while the comparisons
use the unrounded value; `necessita_ribilanciamento = drift_totale > 10`;
`costo_stimato_commissioni = n_operazioni * 2`; the tiered `consiglio`). -/
def bilanciaCore (holdings_correnti target : List (String × ℚ)) : Risultato :=
  let diffs := differenze holdings_correnti target
  let ops := (ordinaDifferenze diffs).map fun p => mkOperazione p.1 p.2
  let n_operazioni := ops.length
  let drift_totale := (diffs.map fun p => |p.2|).sum
  ⟨holdings_correnti, target, ops, target,
    ⟨n_operazioni, round2 drift_totale, decide (10 < drift_totale), n_operazioni * 2,
      if 15 < drift_totale then "Ribilancia ora"
      else if 10 < drift_totale then "Ribilancia tra qualche mese"
      else "Non necessario"⟩⟩

/-- `bilancia_portafoglio(holdings_correnti, target_allocation=None)`: when no
target is given, synthesize the equal-weight target through the dict
comprehension (`sintesiTarget`, whose division can raise), then run the
rebalancing body. -/
def bilancia_portafoglio (holdings_correnti : List (String × ℚ))
    (target_allocation : Option (List (String × ℚ))) : Except String Risultato :=
  match target_allocation with
  | some t => .ok (bilanciaCore holdings_correnti t)
  | none => (sintesiTarget holdings_correnti).map (bilanciaCore holdings_correnti)

/-! ## Market data cache and data source adapter (get_cached_data) -/

/-- Instrument metadata (`asset.info`): a sparse mapping of descriptive fields. -/
abbrev Info := List (String × String)

/-- The yfinance oracle: `history t p` models `yf.Ticker(t).history(period=p)`
(the resulting `Close` column) and `info t` models `yf.Ticker(t).info`. Either
call may raise, modelled by the `.error` case; the payload of an exception is
irrelevant, hence `Unit`. -/
structure Source where
  history : String → String → Except Unit (List ℚ)
  info : String → Except Unit Info

/-- `CACHE_DURATION = 300` seconds. -/
def CACHE_DURATION : ℚ := 300

/-- The fixed ordered list of exchange-suffix fallbacks. -/
def suffissi : List String := [".MI", ".PA", ".L", ".DE"]

/-- One cache entry: `{"df": df, "info": info, "timestamp": now}`. -/
structure CacheEntry where
  df : List ℚ
  info : Info
  timestamp : ℚ
  deriving DecidableEq

/-- The module-level `_data_cache` dict, keyed by `f"{ticker}_{periodo}"`. -/
abbrev Cache := List (String × CacheEntry)

/-- Lookup in the cache dict (first matching key). -/
def cacheLookup (cache : Cache) (key : String) : Option CacheEntry :=
  match cache with
  | [] => none
  | (k, e) :: rest => if k = key then some e else cacheLookup rest key

/-- `_data_cache[cache_key] = entry`: replace the entry under the key if
present, otherwise add it. -/
def cacheStore (cache : Cache) (key : String) (e : CacheEntry) : Cache :=
  match cache with
  | [] => [(key, e)]
  | (k, e0) :: rest =>
      if k = key then (key, e) :: rest else (k, e0) :: cacheStore rest key e

/-- The suffix-fallback loop of `get_cached_data` (lines 51-60). The loop
variables `df` and `info` are threaded through: an exception from
`history` leaves both unchanged (`except: continue`); an empty fetched series
replaces `df` and moves on; a non-empty series followed by an exception from
`info` replaces `df` but keeps the old metadata and moves on; a non-empty
series with successful metadata breaks out of the loop. Also returned is the
list of alternate tickers for which `history` was invoked. -/
def tryFallback (src : Source) (ticker periodo : String) :
    List String → List ℚ → Info → (List ℚ × Info) × List String
  | [], df, info => ((df, info), [])
  | s :: rest, df, info =>
      let alt := ticker ++ s
      match src.history alt periodo with
      | .error _ =>
          let r := tryFallback src ticker periodo rest df info
          (r.1, alt :: r.2)
      | .ok df2 =>
          if !df2.isEmpty then
            match src.info alt with
            | .error _ =>
                let r := tryFallback src ticker periodo rest df2 info
                (r.1, alt :: r.2)
            | .ok info2 => ((df2, info2), [alt])
          else
            let r := tryFallback src ticker periodo rest df2 info
            (r.1, alt :: r.2)

/-- The data-source part of `get_cached_data` (lines 46-60): fetch the primary
symbol's history and metadata — both outside any `try`, so an exception there
propagates — then, if the series is empty, run the suffix-fallback loop.
Returns the resulting series and metadata together with the list of tickers
for which `history` was invoked. -/
def fetch_data (src : Source) (ticker periodo : String) :
    Except Unit ((List ℚ × Info) × List String) :=
  match src.history ticker periodo with
  | .error e => .error e
  | .ok df =>
      match src.info ticker with
      | .error e => .error e
      | .ok info =>
          if df.isEmpty then
            let r := tryFallback src ticker periodo suffissi df info
            .ok (r.1, ticker :: r.2)
          else
            .ok ((df, info), [ticker])

/-- The fetch-and-overwrite path of `get_cached_data` (lines 46-62): run the
adapter and, if it returns, store its result under the key stamped with `now`;
an adapter exception propagates. -/
def fetchStore (src : Source) (cache : Cache) (now : ℚ) (ticker : String)
    (periodo : String) : Except Unit (((List ℚ × Info) × List String) × Cache) :=
  match fetch_data src ticker periodo with
  | .error e => .error e
  | .ok ((df, info), calls) =>
      .ok (((df, info), calls),
        cacheStore cache (ticker ++ "_" ++ periodo) ⟨df, info, now⟩)

/-- `get_cached_data(ticker, periodo="2y")`: on a cache hit whose age is
strictly below `CACHE_DURATION`, return the cached series and metadata (no
oracle call); otherwise fetch through `fetch_data` and overwrite the entry
under the key, stamped with `now`. The result carries the returned pair, the
list of tickers for which `history` was invoked, and the cache after the call. -/
def get_cached_data (src : Source) (cache : Cache) (now : ℚ) (ticker : String)
    (periodo : String) : Except Unit (((List ℚ × Info) × List String) × Cache) :=
  match cacheLookup cache (ticker ++ "_" ++ periodo) with
  | some cached =>
      if now - cached.timestamp < CACHE_DURATION then
        .ok (((cached.df, cached.info), []), cache)
      else fetchStore src cache now ticker periodo
  | none => fetchStore src cache now ticker periodo

/-- A concrete oracle whose every `history` call raises. -/
def srcRaisesPrimary : Source := ⟨fun _ _ => .error (), fun _ => .ok []⟩

/-- A concrete oracle whose every `history` call succeeds with an empty series
and whose `info` returns a fixed one-field mapping. -/
def srcAllEmpty : Source := ⟨fun _ _ => .ok [], fun _ => .ok [("quoteType", "NONE")]⟩

/-- A concrete oracle serving a two-bar series for AAPL and nothing else. -/
def srcAapl : Source :=
  ⟨fun t _ => if t = "AAPL" then .ok [10, 11] else .ok [],
   fun _ => .ok [("sector", "Tech")]⟩

end Financial

namespace Financial

/-! ## Helper lemmas -/

/-- `round2` is the identity on integers. -/
theorem round2_intCast (n : ℤ) : round2 (n : ℚ) = n := by
  have h : ((n : ℚ) * 100) = ((n * 100 : ℤ) : ℚ) := by push_cast; ring
  rw [round2, roundHalfEven, h, Int.floor_intCast]
  rw [sub_self, if_pos (by norm_num : (0:ℚ) < 1/2)]
  push_cast
  ring

/-- `round2` is the identity on natural numbers. -/
theorem round2_natCast (n : ℕ) : round2 (n : ℚ) = n := by
  exact_mod_cast round2_intCast (n : ℤ)

theorem round2_zero : round2 0 = 0 := by
  have h := round2_intCast 0
  simpa using h

/-- `analisi_trend` written with its fields flattened out. -/
theorem analisi_trend_fields (closes : List ℚ) :
    analisi_trend closes =
      ⟨if closes.getLastD 0 > rollingMeanLast closes 50 ∧
            rollingMeanLast closes 50 > rollingMeanLast closes 200 then "Rialzista Forte"
        else if closes.getLastD 0 > rollingMeanLast closes 50 then "Rialzista"
        else if closes.getLastD 0 < rollingMeanLast closes 50 ∧
            rollingMeanLast closes 50 < rollingMeanLast closes 200 then "Ribassista Forte"
        else "Ribassista",
        closes.getLastD 0, rollingMeanLast closes 50, rollingMeanLast closes 200⟩ := rfl

/-- The trend string as a function of price, MA50 and MA200, case by case in
the exact precedence of the `if/elif/elif/else` chain. -/
theorem trendChain (p m50 m200 : ℚ) :
    (p > m50 ∧ m50 > m200 →
      (if p > m50 ∧ m50 > m200 then "Rialzista Forte"
        else if p > m50 then "Rialzista"
        else if p < m50 ∧ m50 < m200 then "Ribassista Forte"
        else "Ribassista") = "Rialzista Forte")
    ∧ (p > m50 → ¬(m50 > m200) →
      (if p > m50 ∧ m50 > m200 then "Rialzista Forte"
        else if p > m50 then "Rialzista"
        else if p < m50 ∧ m50 < m200 then "Ribassista Forte"
        else "Ribassista") = "Rialzista")
    ∧ (¬(p > m50) → p < m50 ∧ m50 < m200 →
      (if p > m50 ∧ m50 > m200 then "Rialzista Forte"
        else if p > m50 then "Rialzista"
        else if p < m50 ∧ m50 < m200 then "Ribassista Forte"
        else "Ribassista") = "Ribassista Forte")
    ∧ (¬(p > m50) → ¬(p < m50 ∧ m50 < m200) →
      (if p > m50 ∧ m50 > m200 then "Rialzista Forte"
        else if p > m50 then "Rialzista"
        else if p < m50 ∧ m50 < m200 then "Ribassista Forte"
        else "Ribassista") = "Ribassista") := by
  refine ⟨fun hh => ?_, fun h1 h2 => ?_, fun h1 h2 => ?_, fun h1 h2 => ?_⟩
  · rw [if_pos hh]
  · rw [if_neg (fun hc => h2 hc.2), if_pos h1]
  · rw [if_neg (fun hc => h1 hc.1), if_neg h1, if_pos h2]
  · rw [if_neg (fun hc => h1 hc.1), if_neg h1, if_neg h2]

/-! ## Claim theorems -/

/-- C3 (code_bug evidence): `calcola_rsi` on a five-bar series with the default
period 14 raises `AttributeError` instead of returning the documented
degenerate default 0.0: pandas_ta `rsi` returns `None` for a series shorter
than `length`, and the guard `rsi.empty` is an attribute access on `None`. -/
theorem rsi_short_series_raises :
    calcola_rsi [1, 2, 3, 4, 5] 14 = .error "AttributeError" := rfl

/-- C4: for computed Bollinger bands (standard deviation `sigma ≥ 0`, being a
square root), a zero-width band (`upper = lower`) yields percent position
exactly 50; otherwise the percent position is `(price - lower) / (upper -
lower) * 100`, which is strictly increasing in the price, 0 at the lower band
and 100 at the upper band. -/
theorem bollinger_percent_position (b : BBands) (hs : 0 ≤ b.sigma) (prezzo : ℚ) :
    (b.bbu = b.bbl →
      (calcola_bollinger_bands prezzo (some b)).posizione_percentuale = 50)
    ∧ (b.bbu ≠ b.bbl →
        (calcola_bollinger_bands prezzo (some b)).posizione_percentuale =
          (prezzo - b.bbl) / (b.bbu - b.bbl) * 100
        ∧ (∀ p1 p2 : ℚ, p1 < p2 →
            (calcola_bollinger_bands p1 (some b)).posizione_percentuale <
            (calcola_bollinger_bands p2 (some b)).posizione_percentuale)
        ∧ (calcola_bollinger_bands b.bbl (some b)).posizione_percentuale = 0
        ∧ (calcola_bollinger_bands b.bbu (some b)).posizione_percentuale = 100) := by
  have hpos : ∀ p : ℚ, (calcola_bollinger_bands p (some b)).posizione_percentuale =
      if b.bbu ≠ b.bbl then (p - b.bbl) / (b.bbu - b.bbl) * 100 else 50 := fun _ => rfl
  constructor
  · intro h
    rw [hpos, if_neg (fun hc => hc h)]
  · intro h
    have hsig : 0 < b.sigma := by
      rcases eq_or_lt_of_le hs with h' | h'
      · exact absurd (by simp [BBands.bbu, BBands.bbl, ← h'] : b.bbu = b.bbl) h
      · exact h'
    have hD : 0 < b.bbu - b.bbl := by
      simp only [BBands.bbu, BBands.bbl]
      linarith
    have hD' : b.bbu - b.bbl ≠ 0 := ne_of_gt hD
    refine ⟨by rw [hpos, if_pos h], ?_, ?_, ?_⟩
    · intro p1 p2 hp
      rw [hpos p1, hpos p2, if_pos h, if_pos h]
      have h1 : (p1 - b.bbl) / (b.bbu - b.bbl) < (p2 - b.bbl) / (b.bbu - b.bbl) := by
        apply div_lt_div_of_pos_right ?_ hD
        linarith
      linarith
    · rw [hpos, if_pos h, sub_self, zero_div, zero_mul]
    · rw [hpos, if_pos h, div_self hD', one_mul]

/-- Witness for C4 at the concrete bands `media = 10`, `sigma = 1`
(so lower band 8, upper band 12): the percent position at the lower band is 0. -/
theorem bollinger_percent_position_witness :
    (calcola_bollinger_bands (BBands.bbl ⟨10, 1⟩) (some ⟨10, 1⟩)).posizione_percentuale = 0 := by
  have h := bollinger_percent_position ⟨10, 1⟩ (by norm_num) 0
  exact (h.2 (by norm_num [BBands.bbu, BBands.bbl])).2.2.1

/-- C5: for a series long enough for both moving averages, `analisi_trend`
reports the last close and the 50- and 200-bar rolling means, and classifies in
the exact precedence of the source: `price > MA50 > MA200` gives "Rialzista
Forte" (Strong Uptrend); else `price > MA50` gives "Rialzista" (Uptrend); else
`price < MA50 < MA200` gives "Ribassista Forte" (Strong Downtrend); every
remaining case — including `price ≤ MA50` with `MA50 ≥ MA200`, and all boundary
equalities — falls through to "Ribassista" (Downtrend). -/
theorem trend_exact_precedence (closes : List ℚ) (h : 200 ≤ closes.length) :
    ((analisi_trend closes).prezzo = closes.getLastD 0
      ∧ (analisi_trend closes).ma_50 = rollingMeanLast closes 50
      ∧ (analisi_trend closes).ma_200 = rollingMeanLast closes 200)
    ∧ ((analisi_trend closes).prezzo > (analisi_trend closes).ma_50 ∧
        (analisi_trend closes).ma_50 > (analisi_trend closes).ma_200 →
        (analisi_trend closes).trend = "Rialzista Forte")
    ∧ ((analisi_trend closes).prezzo > (analisi_trend closes).ma_50 →
        ¬((analisi_trend closes).ma_50 > (analisi_trend closes).ma_200) →
        (analisi_trend closes).trend = "Rialzista")
    ∧ (¬((analisi_trend closes).prezzo > (analisi_trend closes).ma_50) →
        (analisi_trend closes).prezzo < (analisi_trend closes).ma_50 ∧
          (analisi_trend closes).ma_50 < (analisi_trend closes).ma_200 →
        (analisi_trend closes).trend = "Ribassista Forte")
    ∧ (¬((analisi_trend closes).prezzo > (analisi_trend closes).ma_50) →
        ¬((analisi_trend closes).prezzo < (analisi_trend closes).ma_50 ∧
          (analisi_trend closes).ma_50 < (analisi_trend closes).ma_200) →
        (analisi_trend closes).trend = "Ribassista")
    ∧ ((analisi_trend closes).prezzo ≤ (analisi_trend closes).ma_50 →
        (analisi_trend closes).ma_200 ≤ (analisi_trend closes).ma_50 →
        (analisi_trend closes).trend = "Ribassista")
    ∧ ((analisi_trend closes).prezzo = (analisi_trend closes).ma_50 →
        (analisi_trend closes).trend = "Ribassista") := by
  have hc := trendChain (closes.getLastD 0) (rollingMeanLast closes 50)
    (rollingMeanLast closes 200)
  refine ⟨⟨rfl, rfl, rfl⟩, hc.1, hc.2.1, hc.2.2.1, hc.2.2.2, ?_, ?_⟩
  · intro h1 h2
    exact hc.2.2.2 (not_lt.mpr h1) (fun hcontra => absurd hcontra.2 (not_lt.mpr h2))
  · intro h1
    exact hc.2.2.2 (by rw [show (analisi_trend closes).prezzo =
        closes.getLastD 0 from rfl] at h1; rw [h1]; exact lt_irrefl _)
      (fun hcontra => by
        rw [show (analisi_trend closes).prezzo = closes.getLastD 0 from rfl] at h1
        rw [h1] at hcontra
        exact absurd hcontra.1 (lt_irrefl _))

/-- Witness for C5: a constant 200-bar series has price = MA50 = MA200 = 1 and
is classified "Ribassista" through the catch-all branch. -/
theorem trend_exact_precedence_witness :
    (analisi_trend (List.replicate 200 (1 : ℚ))).trend = "Ribassista" := by
  have h := trend_exact_precedence (List.replicate 200 (1 : ℚ))
    (by rw [List.length_replicate])
  have hpz : (analisi_trend (List.replicate 200 (1 : ℚ))).prezzo = 1 := by
    rw [h.1.1, show (200 : ℕ) = 199 + 1 from rfl, List.replicate_succ',
      List.getLastD_concat]
  have hm50 : (analisi_trend (List.replicate 200 (1 : ℚ))).ma_50 = 1 := by
    rw [h.1.2.1, rollingMeanLast, List.reverse_replicate, List.take_replicate,
      List.sum_replicate]
    norm_num [nsmul_eq_mul]
  exact h.2.2.2.2.2.2 (by rw [hpz, hm50])

/-- C9: `crea_portafoglio` signals a validation error exactly when the name is
empty, the holdings map is empty, or the weight sum deviates from 100 by more
than 0.1; the weight-sum error quotes the actual sum in its message; on
success the returned record carries the name, the `"1.0"` version tag, the
creation timestamp, the holdings, the metadata, and the validation summary.
The error cases return no partial record (`Except` carries either the error or
the record, never both) and the function changes no state (it is a pure
function of its arguments). -/
theorem crea_portafoglio_validation (now nome : String) (holdings : List (String × ℚ))
    (meta : Option (List (String × String))) :
    ((∃ p, crea_portafoglio now nome holdings meta = .ok p) ↔
      ¬(nome = "" ∨ holdings = [] ∨ 1/10 < |(holdings.map Prod.snd).sum - 100|))
    ∧ (nome ≠ "" → holdings ≠ [] → 1/10 < |(holdings.map Prod.snd).sum - 100| →
        crea_portafoglio now nome holdings meta =
          .error ("Le percentuali degli asset devono sommare a 100%, attuale: " ++
            toString ((holdings.map Prod.snd).sum) ++ "%"))
    ∧ (∀ p, crea_portafoglio now nome holdings meta = .ok p →
        p = ⟨nome, "portfolio", "1.0", now, holdings, meta.getD [],
          (holdings.map Prod.snd).sum, holdings.length, holdings.map Prod.fst⟩) := by
  by_cases h1 : nome = ""
  · have he : crea_portafoglio now nome holdings meta =
        .error "Il nome del portafoglio e obbligatorio" := by
      rw [crea_portafoglio, if_pos h1]
    refine ⟨⟨?_, ?_⟩, ?_, ?_⟩
    · rintro ⟨p, hp⟩
      rw [he] at hp
      exact Except.noConfusion hp
    · intro hcon
      exact absurd (Or.inl h1) hcon
    · intro hn _ _
      exact absurd h1 hn
    · intro p hp
      rw [he] at hp
      exact Except.noConfusion hp
  · by_cases h2 : holdings = []
    · have he : crea_portafoglio now nome holdings meta =
          .error "Il portafoglio deve contenere almeno un asset" := by
        rw [crea_portafoglio, if_neg h1, if_pos h2]
      refine ⟨⟨?_, ?_⟩, ?_, ?_⟩
      · rintro ⟨p, hp⟩
        rw [he] at hp
        exact Except.noConfusion hp
      · intro hcon
        exact absurd (Or.inr (Or.inl h2)) hcon
      · intro _ hn _
        exact absurd h2 hn
      · intro p hp
        rw [he] at hp
        exact Except.noConfusion hp
    · by_cases h3 : 1/10 < |(holdings.map Prod.snd).sum - 100|
      · have he : crea_portafoglio now nome holdings meta =
            .error ("Le percentuali degli asset devono sommare a 100%, attuale: " ++
              toString ((holdings.map Prod.snd).sum) ++ "%") := by
          rw [crea_portafoglio, if_neg h1, if_neg h2]
          exact if_pos h3
        refine ⟨⟨?_, ?_⟩, ?_, ?_⟩
        · rintro ⟨p, hp⟩
          rw [he] at hp
          exact Except.noConfusion hp
        · intro hcon
          exact absurd (Or.inr (Or.inr h3)) hcon
        · intro _ _ _
          exact he
        · intro p hp
          rw [he] at hp
          exact Except.noConfusion hp
      · have he : crea_portafoglio now nome holdings meta =
            .ok ⟨nome, "portfolio", "1.0", now, holdings, meta.getD [],
              (holdings.map Prod.snd).sum, holdings.length, holdings.map Prod.fst⟩ := by
          rw [crea_portafoglio, if_neg h1, if_neg h2]
          exact if_neg h3
        refine ⟨⟨?_, ?_⟩, ?_, ?_⟩
        · intro _
          rintro (hc | hc | hc)
          · exact h1 hc
          · exact h2 hc
          · exact h3 hc
        · intro _
          exact ⟨_, he⟩
        · intro _ _ hc
          exact absurd hc h3
        · intro p hp
          rw [he] at hp
          injection hp with hinj
          exact hinj.symm

/-- Witness for C9: a weight sum of 100.2 (beyond the 0.1 tolerance) produces
the validation error quoting the sum. -/
theorem crea_portafoglio_validation_witness :
    crea_portafoglio "2024-01-01" "Pensione" [("VTI", 501/5)] none =
      .error ("Le percentuali degli asset devono sommare a 100%, attuale: " ++
        toString (([(("VTI" : String), (501:ℚ)/5)].map Prod.snd).sum) ++ "%") := by
  have h := crea_portafoglio_validation "2024-01-01" "Pensione" [("VTI", 501/5)] none
  have hsum : (List.map Prod.snd [(("VTI" : String), (501:ℚ)/5)]).sum - 100 = 1/5 := by
    norm_num
  exact h.2.1 (by decide) (by simp)
    (by rw [hsum, abs_of_pos (by norm_num)]; norm_num)

/-- C8 counterexample: the HoldingSet `{A: 30, B: 30}` has two tickers carrying
the same weight, yet the effective asset count is `round(50/9, 2) = 5.56 ≠ 2`
and the diversification score is `round(2500/9, 2) = 277.78 ≠ 100`. -/
theorem herfindahl_equal_weights_counterexample :
    numero_effettivo_asset [30, 30] ≠ 2 ∧ diversificazione_score [30, 30] ≠ 100 := by
  have hh : herfindahl [30, 30] = 9/50 := by
    rw [herfindahl]
    norm_num
  have hn : n_effettivo [30, 30] = 50/9 := by
    rw [n_effettivo, hh, if_pos (by norm_num)]
    norm_num
  have hf : (⌊(50:ℚ)/9 * 100⌋ : ℤ) = 555 := by
    norm_num [Int.floor_eq_iff]
  have hr : round2 ((50:ℚ)/9) = 139/25 := by
    rw [round2, roundHalfEven, hf, if_neg (by norm_num), if_pos (by norm_num)]
    norm_num
  constructor
  · rw [numero_effettivo_asset, hn, hr]
    norm_num
  · have hs : n_effettivo [30, 30] / (([30, 30] : List ℚ).length : ℚ) * 100 = 2500/9 := by
      rw [hn]
      norm_num
    have hf2 : (⌊(2500:ℚ)/9 * 100⌋ : ℤ) = 27777 := by
      norm_num [Int.floor_eq_iff]
    rw [diversificazione_score, hs, round2, roundHalfEven, hf2,
      if_neg (by norm_num), if_pos (by norm_num)]
    norm_num

/-- C8 amended: for `N ≥ 2` tickers each carrying the equal weight `100/N`
(weights summing to 100), the effective asset count `1 / Σ (wᵢ/100)²` is
exactly `N` and the diversification score is exactly 100. -/
theorem herfindahl_equal_weights (N : ℕ) (hN : 2 ≤ N) :
    numero_effettivo_asset (List.replicate N (100 / (N : ℚ))) = N ∧
    diversificazione_score (List.replicate N (100 / (N : ℚ))) = 100 := by
  have hNpos : (0 : ℚ) < N := by
    exact_mod_cast Nat.lt_of_lt_of_le (by norm_num) hN
  have hN0 : (N : ℚ) ≠ 0 := ne_of_gt hNpos
  have hh : herfindahl (List.replicate N (100 / (N : ℚ))) = 1 / N := by
    rw [herfindahl, List.map_replicate, List.sum_replicate, nsmul_eq_mul]
    field_simp
    ring
  have hn : n_effettivo (List.replicate N (100 / (N : ℚ))) = N := by
    rw [n_effettivo, hh, if_pos (by positivity), one_div_one_div]
  have h100 : round2 (100 : ℚ) = 100 := by
    exact_mod_cast round2_natCast 100
  constructor
  · rw [numero_effettivo_asset, hn, round2_natCast]
  · rw [diversificazione_score, hn, List.length_replicate, div_self hN0, one_mul, h100]

/-- Witness for the amended C8 at `N = 4`: four holdings of 25% each give an
effective asset count of exactly 4. -/
theorem herfindahl_equal_weights_witness :
    numero_effettivo_asset (List.replicate 4 (100 / (4 : ℚ))) = 4 := by
  exact_mod_cast (herfindahl_equal_weights 4 (by norm_num)).1

/-! ### Rebalancer lemmas -/

/-- Both branches of the emission loop carry the ticker through unchanged. -/
theorem mkOperazione_ticker (t : String) (d : ℚ) : (mkOperazione t d).ticker = t := by
  rw [mkOperazione]
  split_ifs <;> rfl

/-- A key absent from a dict looks up to nothing. -/
theorem dictGet_eq_none {h : List (String × ℚ)} {x : String}
    (hx : x ∉ h.map Prod.fst) : dictGet h x = none := by
  induction h with
  | nil => rfl
  | cons a l ih =>
      simp only [List.map_cons, List.mem_cons, not_or] at hx
      rw [dictGet, if_neg (fun hc => hx.1 hc.symm)]
      exact ih hx.2

/-- A ticker with a nonzero drift belongs to the union of the two key sets. -/
theorem mem_unione_of_drift_ne {c t : List (String × ℚ)} {x : String}
    (hd : pyGet t x - pyGet c x ≠ 0) : x ∈ unione c t := by
  by_contra hx
  rw [unione, List.mem_dedup, List.mem_append, not_or] at hx
  have h1 : pyGet c x = 0 := by rw [pyGet, dictGet_eq_none hx.1]; rfl
  have h2 : pyGet t x = 0 := by rw [pyGet, dictGet_eq_none hx.2]; rfl
  rw [h1, h2] at hd
  exact hd (by norm_num)

/-- Membership in the drift dict, characterized. -/
theorem mem_differenze {c t : List (String × ℚ)} {p : String × ℚ} :
    p ∈ differenze c t ↔
      p.1 ∈ unione c t ∧ p.2 = pyGet t p.1 - pyGet c p.1 ∧ 1 < |p.2| := by
  rw [differenze, List.mem_filterMap]
  constructor
  · rintro ⟨a, ha, hfa⟩
    by_cases hcond : 1 < |pyGet t a - pyGet c a|
    · rw [if_pos hcond] at hfa
      injection hfa with hfa
      rw [← hfa]
      exact ⟨ha, rfl, hcond⟩
    · rw [if_neg hcond] at hfa
      exact Option.noConfusion hfa
  · rintro ⟨h1, h2, h3⟩
    refine ⟨p.1, h1, ?_⟩
    rw [← h2, if_pos h3]

/-- `filterMap` with a key-preserving function sends key lists to sublists. -/
theorem map_fst_filterMap_sublist (f : String → Option (String × ℚ))
    (hf : ∀ a b, f a = some b → b.1 = a) (l : List String) :
    ((l.filterMap f).map Prod.fst).Sublist l := by
  induction l with
  | nil => simp
  | cons a l ih =>
      rw [List.filterMap_cons]
      cases hfa : f a with
      | none => exact ih.cons a
      | some b =>
          rw [List.map_cons, hf a b hfa]
          exact ih.cons₂ a

/-- The drift dict has pairwise distinct tickers. -/
theorem differenze_keys_nodup (c t : List (String × ℚ)) :
    ((differenze c t).map Prod.fst).Nodup := by
  have hsub : ((differenze c t).map Prod.fst).Sublist (unione c t) := by
    rw [differenze]
    apply map_fst_filterMap_sublist
    intro a b hab
    by_cases hcond : 1 < |pyGet t a - pyGet c a|
    · rw [if_pos hcond] at hab
      injection hab with hab
      rw [← hab]
    · rw [if_neg hcond] at hab
      exact Option.noConfusion hab
  exact hsub.nodup (List.nodup_dedup _)

/-- Sorting the drift dict permutes it. -/
theorem ordinaDifferenze_perm (d : List (String × ℚ)) : (ordinaDifferenze d).Perm d :=
  List.perm_insertionSort _ d

/-- The sorted drift dict is pairwise descending in absolute drift. -/
theorem ordinaDifferenze_sorted (d : List (String × ℚ)) :
    (ordinaDifferenze d).Pairwise (fun a b => |b.2| ≤ |a.2|) := by
  haveI : IsTotal (String × ℚ) (fun a b => |b.2| ≤ |a.2|) :=
    ⟨fun a b => le_total |b.2| |a.2|⟩
  haveI : IsTrans (String × ℚ) (fun a b => |b.2| ≤ |a.2|) :=
    ⟨fun _ _ _ h1 h2 => le_trans h2 h1⟩
  exact List.sorted_insertionSort _ d

/-- In a list with pairwise distinct keys containing `(x, d)`, filtering on the
key `x` yields exactly `[(x, d)]`. -/
theorem filter_key_single {l : List (String × ℚ)} {x : String} {d : ℚ}
    (hnd : (l.map Prod.fst).Nodup) (hm : (x, d) ∈ l) :
    l.filter (fun p => p.1 == x) = [(x, d)] := by
  induction l with
  | nil => cases hm
  | cons a l ih =>
      rw [List.map_cons, List.nodup_cons] at hnd
      rcases List.mem_cons.mp hm with he | hl
      · have hax : (a.1 == x) = true := by
          rw [← he]
          simp
        rw [List.filter_cons, if_pos hax, ← he]
        have hnil : l.filter (fun p => p.1 == x) = [] := by
          apply List.filter_eq_nil_iff.mpr
          intro p hp hpx
          apply hnd.1
          have hpx' : p.1 = x := by simpa using hpx
          have hx_mem : x ∈ List.map Prod.fst l := by
            rw [← hpx']
            exact List.mem_map_of_mem Prod.fst hp
          rw [← he]
          exact hx_mem
        rw [hnil]
      · have hax : (a.1 == x) = false := by
          apply beq_eq_false_iff_ne.mpr
          intro hc
          apply hnd.1
          rw [hc]
          exact List.mem_map_of_mem Prod.fst hl
        rw [List.filter_cons, if_neg (by simp [hax]), ih hnd.2 hl]

/-- The synthesized equal-weight target for a non-empty current HoldingSet. -/
theorem mapM_pyDiv (n : ℚ) (hn : n ≠ 0) (l : List (String × ℚ)) :
    (l.mapM fun p => do
      let q ← pyDiv 100 n
      pure (p.1, q)) = Except.ok (l.map fun p => (p.1, 100 / n)) := by
  have hpy : pyDiv 100 n = pure (100 / n) := by
    rw [pyDiv, if_neg hn]
    rfl
  induction l with
  | nil => rfl
  | cons a l ih =>
      rw [List.mapM_cons, ih, hpy]
      rfl

/-- `sintesiTarget` on a non-empty dict: every ticker is assigned `100/n`. -/
theorem sintesiTarget_eq (c : List (String × ℚ)) (h : c ≠ []) :
    sintesiTarget c = .ok (c.map fun p => (p.1, 100 / (c.length : ℚ))) := by
  have hn : ((c.length : ℚ)) ≠ 0 := by
    have hl : c.length ≠ 0 := fun hc => h (List.length_eq_zero.mp hc)
    exact_mod_cast hl
  unfold sintesiTarget
  exact mapM_pyDiv _ hn c

/-- C10 counterexample: on the empty HoldingSet with no target, the dict
comprehension body (the division) is never evaluated, so no `ZeroDivisionError`
is raised: `bilancia_portafoglio` returns a normal plan with an empty target,
zero operations, zero drift and no rebalancing need. -/
theorem rebalance_empty_no_target_returns :
    bilancia_portafoglio [] none =
      .ok ⟨[], [], [], [], ⟨0, 0, false, 0, "Non necessario"⟩⟩ := by
  have h1 : bilancia_portafoglio [] none = .ok (bilanciaCore [] []) := rfl
  have h2 : bilanciaCore [] [] = ⟨[], [], [], [],
      ⟨0, round2 0, decide (10 < (0 : ℚ)), 0,
        if 15 < (0 : ℚ) then "Ribilancia ora"
        else if 10 < (0 : ℚ) then "Ribilancia tra qualche mese"
        else "Non necessario"⟩⟩ := rfl
  rw [h1, h2, round2_zero, decide_eq_false (by norm_num : ¬(10 < (0 : ℚ))),
    if_neg (by norm_num : ¬(15 < (0 : ℚ))), if_neg (by norm_num : ¬(10 < (0 : ℚ)))]

/-- C10 amended: with no target given, a non-empty current HoldingSet with `n`
tickers gets the synthesized target assigning exactly `100/n` percent to each
ticker of `current`, and the rebalancing proceeds against it; the empty
HoldingSet (see the counterexample) also returns a plan — the operation is
total, because the division inside the comprehension is evaluated only once
per ticker. -/
theorem rebalance_default_target (c : List (String × ℚ)) (h : c ≠ []) :
    bilancia_portafoglio c none =
      .ok (bilanciaCore c (c.map fun p => (p.1, 100 / (c.length : ℚ))))
    ∧ (bilanciaCore c (c.map fun p => (p.1, 100 / (c.length : ℚ)))).target_allocation =
        c.map fun p => (p.1, 100 / (c.length : ℚ)) := by
  constructor
  · show (sintesiTarget c).map (bilanciaCore c) = _
    rw [sintesiTarget_eq c h]
    rfl
  · rfl

/-- Witness for the amended C10: a two-asset portfolio with no target gets the
50/50 synthesized target. -/
theorem rebalance_default_target_witness :
    bilancia_portafoglio [("A", 60), ("B", 40)] none =
      .ok (bilanciaCore [("A", 60), ("B", 40)]
        ([("A", 60), ("B", 40)].map fun p =>
          (p.1, 100 / (([("A", 60), ("B", 40)] : List (String × ℚ)).length : ℚ)))) :=
  (rebalance_default_target [("A", 60), ("B", 40)] (by simp)).1

/-- C6: drift is `target% - current%` over the union of tickers of both maps;
a ticker with `|drift| ≤ 1.0` produces no action; and when every ticker of the
union has `|drift| ≤ 1.0` the plan has zero operations, total drift 0, and
`necessita_ribilanciamento = false`. -/
theorem rebalance_noop_threshold (correnti target : List (String × ℚ)) (r : Risultato)
    (hr : bilancia_portafoglio correnti (some target) = .ok r) :
    (∀ x ∈ unione correnti target, |pyGet target x - pyGet correnti x| ≤ 1 →
      ∀ op ∈ r.operazioni_suggerite, op.ticker ≠ x)
    ∧ ((∀ x ∈ unione correnti target, |pyGet target x - pyGet correnti x| ≤ 1) →
      r.operazioni_suggerite = [] ∧ r.analisi.drift_totale = 0 ∧
        r.analisi.necessita_ribilanciamento = false) := by
  have hrr : r = bilanciaCore correnti target := by
    have hb : bilancia_portafoglio correnti (some target) =
        .ok (bilanciaCore correnti target) := rfl
    rw [hb] at hr
    injection hr with hinj
    exact hinj.symm
  subst hrr
  constructor
  · intro x _ hle op hop hticker
    have hops : (bilanciaCore correnti target).operazioni_suggerite =
        (ordinaDifferenze (differenze correnti target)).map
          fun p => mkOperazione p.1 p.2 := rfl
    rw [hops] at hop
    obtain ⟨p, hp, hop_eq⟩ := List.mem_map.mp hop
    have hpd : p ∈ differenze correnti target :=
      (ordinaDifferenze_perm _).subset hp
    have hprops := mem_differenze.mp hpd
    rw [← hop_eq, mkOperazione_ticker] at hticker
    rw [hticker] at hprops
    rw [hprops.2.1] at hprops
    exact absurd hprops.2.2 (not_lt.mpr hle)
  · intro hall
    have hdn : differenze correnti target = [] := by
      rw [differenze]
      apply List.filterMap_eq_nil_iff.mpr
      intro a ha
      exact if_neg (not_lt.mpr (hall a ha))
    refine ⟨?_, ?_, ?_⟩
    · show (ordinaDifferenze (differenze correnti target)).map
        (fun p => mkOperazione p.1 p.2) = []
      rw [hdn]
      rfl
    · show round2 ((differenze correnti target).map fun p => |p.2|).sum = 0
      rw [hdn]
      exact round2_zero
    · show decide (10 < ((differenze correnti target).map fun p => |p.2|).sum) = false
      rw [hdn]
      exact decide_eq_false (by norm_num : ¬(10 < (([] : List ℚ).sum)))

/-- Witness for C6: currents 50/50 against targets 50.5/49.5 (all drifts 0.5)
produce an empty plan with no rebalancing need. -/
theorem rebalance_noop_threshold_witness :
    (bilanciaCore [("A", 50), ("B", 50)] [("A", 101/2), ("B", 99/2)]).operazioni_suggerite = []
    ∧ (bilanciaCore [("A", 50), ("B", 50)] [("A", 101/2), ("B", 99/2)]).analisi.necessita_ribilanciamento = false := by
  have h := rebalance_noop_threshold [("A", 50), ("B", 50)] [("A", 101/2), ("B", 99/2)]
    (bilanciaCore [("A", 50), ("B", 50)] [("A", 101/2), ("B", 99/2)]) rfl
  have hall : ∀ x ∈ unione [("A", 50), ("B", 50)] [("A", 101/2), ("B", 99/2)],
      |pyGet [("A", 101/2), ("B", 99/2)] x - pyGet [("A", 50), ("B", 50)] x| ≤ 1 := by
    intro x hx
    have hu : unione [(("A" : String), (50 : ℚ)), ("B", 50)] [("A", 101/2), ("B", 99/2)] =
        ["A", "B"] := by
      decide
    rw [hu] at hx
    rcases List.mem_cons.mp hx with hA | hx
    · subst hA
      have h1 : pyGet [(("A" : String), (101 : ℚ)/2), ("B", 99/2)] "A" = 101/2 := by
        simp [pyGet, dictGet]
      have h2 : pyGet [(("A" : String), (50 : ℚ)), ("B", 50)] "A" = 50 := by
        simp [pyGet, dictGet]
      rw [h1, h2, show (101 : ℚ)/2 - 50 = 1/2 by norm_num, abs_of_pos (by norm_num)]
      norm_num
    · have hB : x = "B" := by simpa using hx
      subst hB
      have h1 : pyGet [(("A" : String), (101 : ℚ)/2), ("B", 99/2)] "B" = 99/2 := by
        simp [pyGet, dictGet]
      have h2 : pyGet [(("A" : String), (50 : ℚ)), ("B", 50)] "B" = 50 := by
        simp [pyGet, dictGet]
      rw [h1, h2, show (99 : ℚ)/2 - 50 = -(1/2) by norm_num, abs_neg,
        abs_of_pos (by norm_num)]
      norm_num
  exact ⟨(h.2 hall).1, (h.2 hall).2.2⟩

/-- C7 counterexample: a drift of 10/3 yields a BUY whose percentage field is
the rounded `round(10/3, 2) = 3.33`, not the drift `10/3` itself. -/
theorem rebalance_percent_rounded_counterexample :
    (bilanciaCore [("A", 0)] [("A", 10/3)]).operazioni_suggerite =
      [⟨"A", "ACQUISTA", 333/100, "Bassa"⟩]
    ∧ (333 : ℚ)/100 ≠ 10/3 := by
  constructor
  · have hdiff : differenze [(("A" : String), (0 : ℚ))] [("A", 10/3)] = [("A", 10/3)] := by
      simp [differenze, unione, pyGet, dictGet, List.dedup, List.filterMap]
      have hc : 1 < |(10 : ℚ)/3| := by
        rw [abs_of_pos (by norm_num : (0 : ℚ) < 10/3)]
        norm_num
      rw [if_pos hc]
    show ((ordinaDifferenze (differenze [(("A" : String), (0 : ℚ))] [("A", 10/3)])).map
      fun p => mkOperazione p.1 p.2) = _
    rw [hdiff]
    show [mkOperazione "A" (10/3)] = _
    have habs : |(10 : ℚ)/3| = 10/3 := abs_of_pos (by norm_num)
    have hf : (⌊(10 : ℚ)/3 * 100⌋ : ℤ) = 333 := by
      norm_num [Int.floor_eq_iff]
    have hr : round2 ((10 : ℚ)/3) = 333/100 := by
      rw [round2, roundHalfEven, hf, if_pos (by norm_num)]
      norm_num
    rw [mkOperazione, if_pos (by norm_num : (0 : ℚ) < 10/3), habs, hr,
      if_neg (by norm_num), if_neg (by norm_num)]
  · norm_num

/-- C7 (amended): each ticker with `|drift| > 1` yields exactly one action — a BUY of the
(rounded) drift when positive, a SELL of the (rounded) absolute drift when
negative, with priority Alta above 10, Media above 5, Bassa otherwise; the
action list is the image of the drift dict sorted by descending absolute
drift; `necessita_ribilanciamento` holds exactly when the total absolute drift
exceeds 10; commissions are 2 per operation; and the verdict is tiered at 15
and 10. -/
theorem rebalance_plan_shape (correnti target : List (String × ℚ)) (r : Risultato)
    (hr : bilancia_portafoglio correnti (some target) = .ok r) :
    (∀ x : String, 1 < |pyGet target x - pyGet correnti x| →
        r.operazioni_suggerite.filter (fun op => op.ticker == x) =
          [mkOperazione x (pyGet target x - pyGet correnti x)])
    ∧ (∀ x d, 0 < d → mkOperazione x d =
        ⟨x, "ACQUISTA", round2 d,
          if 10 < |d| then "Alta" else if 5 < |d| then "Media" else "Bassa"⟩)
    ∧ (∀ x d, d < 0 → mkOperazione x d =
        ⟨x, "VENDI", round2 |d|,
          if 10 < |d| then "Alta" else if 5 < |d| then "Media" else "Bassa"⟩)
    ∧ r.operazioni_suggerite =
        (ordinaDifferenze (differenze correnti target)).map (fun p => mkOperazione p.1 p.2)
    ∧ (ordinaDifferenze (differenze correnti target)).Pairwise (fun a b => |b.2| ≤ |a.2|)
    ∧ (r.analisi.necessita_ribilanciamento = true ↔
        10 < ((differenze correnti target).map fun p => |p.2|).sum)
    ∧ r.analisi.numero_operazioni = (differenze correnti target).length
    ∧ r.analisi.costo_stimato_commissioni = r.analisi.numero_operazioni * 2
    ∧ (15 < ((differenze correnti target).map fun p => |p.2|).sum →
        r.analisi.consiglio = "Ribilancia ora")
    ∧ (10 < ((differenze correnti target).map fun p => |p.2|).sum →
        ((differenze correnti target).map fun p => |p.2|).sum ≤ 15 →
        r.analisi.consiglio = "Ribilancia tra qualche mese")
    ∧ (((differenze correnti target).map fun p => |p.2|).sum ≤ 10 →
        r.analisi.consiglio = "Non necessario")
    ∧ r.analisi.drift_totale =
        round2 (((differenze correnti target).map fun p => |p.2|).sum) := by
  have hrr : r = bilanciaCore correnti target := by
    have hb : bilancia_portafoglio correnti (some target) =
        .ok (bilanciaCore correnti target) := rfl
    rw [hb] at hr
    injection hr with hinj
    exact hinj.symm
  subst hrr
  refine ⟨?_, ?_, ?_, rfl, ordinaDifferenze_sorted _, ?_, ?_, rfl, ?_, ?_, ?_, rfl⟩
  · intro x hx
    have hd : (x, pyGet target x - pyGet correnti x) ∈ differenze correnti target := by
      apply mem_differenze.mpr
      refine ⟨?_, rfl, hx⟩
      apply mem_unione_of_drift_ne
      intro hc
      rw [hc] at hx
      norm_num at hx
    have hmem : (x, pyGet target x - pyGet correnti x) ∈
        ordinaDifferenze (differenze correnti target) :=
      ((ordinaDifferenze_perm _).mem_iff).mpr hd
    have hnd : ((ordinaDifferenze (differenze correnti target)).map Prod.fst).Nodup := by
      have hperm : ((ordinaDifferenze (differenze correnti target)).map Prod.fst).Perm
          ((differenze correnti target).map Prod.fst) := (ordinaDifferenze_perm _).map _
      exact hperm.nodup_iff.mpr (differenze_keys_nodup _ _)
    show ((ordinaDifferenze (differenze correnti target)).map
        (fun p => mkOperazione p.1 p.2)).filter (fun op => op.ticker == x) = _
    rw [List.filter_map]
    have hcomp : ((fun op => op.ticker == x) ∘ fun p : String × ℚ =>
        mkOperazione p.1 p.2) = fun p : String × ℚ => p.1 == x := by
      funext p
      simp [Function.comp, mkOperazione_ticker]
    rw [hcomp, filter_key_single hnd hmem]
    rfl
  · intro x d hd
    rw [mkOperazione, if_pos hd]
  · intro x d hd
    rw [mkOperazione, if_neg (not_lt.mpr hd.le)]
  · show decide (10 < ((differenze correnti target).map fun p => |p.2|).sum) = true ↔ _
    rw [decide_eq_true_eq]
  · show ((ordinaDifferenze (differenze correnti target)).map
        (fun p => mkOperazione p.1 p.2)).length = _
    rw [List.length_map, (ordinaDifferenze_perm _).length_eq]
  · intro h15
    show (if 15 < ((differenze correnti target).map fun p => |p.2|).sum then "Ribilancia ora"
      else if 10 < ((differenze correnti target).map fun p => |p.2|).sum then
        "Ribilancia tra qualche mese" else "Non necessario") = _
    rw [if_pos h15]
  · intro h10 h15
    show (if 15 < ((differenze correnti target).map fun p => |p.2|).sum then "Ribilancia ora"
      else if 10 < ((differenze correnti target).map fun p => |p.2|).sum then
        "Ribilancia tra qualche mese" else "Non necessario") = _
    rw [if_neg (not_lt.mpr h15), if_pos h10]
  · intro h10
    show (if 15 < ((differenze correnti target).map fun p => |p.2|).sum then "Ribilancia ora"
      else if 10 < ((differenze correnti target).map fun p => |p.2|).sum then
        "Ribilancia tra qualche mese" else "Non necessario") = _
    rw [if_neg (not_lt.mpr (le_trans h10 (by norm_num))), if_neg (not_lt.mpr h10)]

/-- Witness for C7 at the spec scenario `rebalance({"A":60,"B":40},
{"A":50,"B":50})`: ticker B (drift +10) yields exactly one action, and the
total drift 20 gives the verdict "Ribilancia ora". -/
theorem rebalance_plan_shape_witness :
    (bilanciaCore [("A", 60), ("B", 40)] [("A", 50), ("B", 50)]).operazioni_suggerite.filter
        (fun op => op.ticker == "B") =
      [mkOperazione "B" (pyGet [("A", 50), ("B", 50)] "B" - pyGet [("A", 60), ("B", 40)] "B")]
    ∧ (bilanciaCore [("A", 60), ("B", 40)] [("A", 50), ("B", 50)]).analisi.consiglio =
        "Ribilancia ora" := by
  have h := rebalance_plan_shape [("A", 60), ("B", 40)] [("A", 50), ("B", 50)]
    (bilanciaCore [("A", 60), ("B", 40)] [("A", 50), ("B", 50)]) rfl
  have h1 : pyGet [(("A" : String), (50 : ℚ)), ("B", 50)] "B" = 50 := by
    simp [pyGet, dictGet]
  have h2 : pyGet [(("A" : String), (60 : ℚ)), ("B", 40)] "B" = 40 := by
    simp [pyGet, dictGet]
  constructor
  · apply h.1 "B"
    rw [h1, h2, show (50 : ℚ) - 40 = 10 by norm_num, abs_of_pos (by norm_num)]
    norm_num
  · apply h.2.2.2.2.2.2.2.2.1
    have hdiff : differenze [(("A" : String), (60 : ℚ)), ("B", 40)] [("A", 50), ("B", 50)] =
        [("A", -10), ("B", 10)] := by
      simp [differenze, unione, pyGet, dictGet, List.dedup, List.filterMap]
      norm_num
    have ha : |(-10 : ℚ)| = 10 := by
      rw [abs_neg, abs_of_pos (by norm_num : (0 : ℚ) < 10)]
    have hb : |(10 : ℚ)| = 10 := abs_of_pos (by norm_num)
    rw [hdiff, List.map_cons, List.map_cons, List.map_nil, ha, hb, List.sum_cons,
      List.sum_cons, List.sum_nil]
    norm_num

/-! ### Cache and adapter lemmas -/

/-- A successful adapter run always invoked the oracle at least once (the
primary ticker heads the call list). -/
theorem fetch_data_calls_ne_nil {src : Source} {ticker periodo : String}
    {df : List ℚ} {info : Info} {calls : List String}
    (h : fetch_data src ticker periodo = .ok ((df, info), calls)) : calls ≠ [] := by
  unfold fetch_data at h
  cases hh : src.history ticker periodo with
  | error e =>
      simp only [hh] at h
      exact Except.noConfusion h
  | ok d =>
      simp only [hh] at h
      cases hi : src.info ticker with
      | error e =>
          simp only [hi] at h
          exact Except.noConfusion h
      | ok i =>
          simp only [hi] at h
          by_cases hd : d.isEmpty
          · rw [if_pos hd] at h
            injection h with h
            injection h with h1 h2
            rw [← h2]
            simp
          · rw [if_neg hd] at h
            injection h with h
            injection h with h1 h2
            rw [← h2]
            simp

/-- C1: a lookup whose entry age is strictly below the 300-second TTL returns
the cached series and metadata unchanged, with no oracle call and the cache
untouched — for every oracle; on a miss or a stale hit, whenever the adapter
returns a result (the exception path is the subject of C2), the entry under the
key is overwritten unconditionally with that result — empty series included —
stamped with the current timestamp, and at least one oracle call was made. -/
theorem cache_ttl_semantics (src : Source) (cache : Cache) (now : ℚ)
    (ticker periodo : String) :
    (∀ e, cacheLookup cache (ticker ++ "_" ++ periodo) = some e →
        now - e.timestamp < CACHE_DURATION →
        get_cached_data src cache now ticker periodo = .ok (((e.df, e.info), []), cache))
    ∧ ((cacheLookup cache (ticker ++ "_" ++ periodo) = none ∨
        (∃ e, cacheLookup cache (ticker ++ "_" ++ periodo) = some e ∧
          CACHE_DURATION ≤ now - e.timestamp)) →
      ∀ df info calls, fetch_data src ticker periodo = .ok ((df, info), calls) →
        get_cached_data src cache now ticker periodo =
          .ok (((df, info), calls),
            cacheStore cache (ticker ++ "_" ++ periodo) ⟨df, info, now⟩)
        ∧ calls ≠ []) := by
  constructor
  · intro e he hfresh
    unfold get_cached_data
    simp only [he]
    rw [if_pos hfresh]
  · intro hmiss df info calls hfetch
    refine ⟨?_, fetch_data_calls_ne_nil hfetch⟩
    have hfs : fetchStore src cache now ticker periodo =
        .ok (((df, info), calls),
          cacheStore cache (ticker ++ "_" ++ periodo) ⟨df, info, now⟩) := by
      unfold fetchStore
      simp only [hfetch]
    unfold get_cached_data
    rcases hmiss with hnone | ⟨e, he, hstale⟩
    · simp only [hnone]
      exact hfs
    · simp only [he]
      rw [if_neg (not_lt.mpr hstale)]
      exact hfs

/-- Witness for C1: a fresh entry for AAPL (age 100 s < 300 s) is returned
unchanged, with no call and the cache untouched. -/
theorem cache_ttl_semantics_witness :
    get_cached_data srcAapl [("AAPL_2y", ⟨[10, 11], [("sector", "Tech")], 0⟩)] 100
        "AAPL" "2y" =
      .ok ((([10, 11], [("sector", "Tech")]), []),
        [("AAPL_2y", ⟨[10, 11], [("sector", "Tech")], 0⟩)]) := by
  refine (cache_ttl_semantics srcAapl [("AAPL_2y", ⟨[10, 11], [("sector", "Tech")], 0⟩)]
    100 "AAPL" "2y").1 ⟨[10, 11], [("sector", "Tech")], 0⟩ rfl ?_
  show (100 : ℚ) - 0 < CACHE_DURATION
  norm_num [CACHE_DURATION]

/-- C2 counterexample: an exception in the primary fetch is not swallowed — it
propagates out of `get_cached_data` instead of falling through to the suffix
variants or an empty series. -/
theorem fetch_primary_exception_propagates :
    get_cached_data srcRaisesPrimary [] 0 "ABC" "2y" = .error () := rfl

/-- If every suffix attempt raises or yields an empty series, the fallback loop
leaves the (empty) series and the incoming metadata unchanged. -/
theorem tryFallback_all_fail (src : Source) (ticker periodo : String) (info : Info)
    (l : List String)
    (h : ∀ s ∈ l, src.history (ticker ++ s) periodo = .error () ∨
      src.history (ticker ++ s) periodo = .ok []) :
    (tryFallback src ticker periodo l [] info).1 = ([], info) := by
  induction l with
  | nil => rfl
  | cons s rest ih =>
      have hrest : ∀ s' ∈ rest, src.history (ticker ++ s') periodo = .error () ∨
          src.history (ticker ++ s') periodo = .ok [] :=
        fun s' hs' => h s' (List.mem_cons_of_mem _ hs')
      rcases h s (List.mem_cons_self s rest) with hs | hs
      · show (tryFallback src ticker periodo (s :: rest) [] info).1 = ([], info)
        unfold tryFallback
        simp only [hs]
        exact ih hrest
      · show (tryFallback src ticker periodo (s :: rest) [] info).1 = ([], info)
        unfold tryFallback
        simp only [hs, List.isEmpty_nil, Bool.not_true]
        exact ih hrest

/-- C2 amended: once the primary fetch (history and metadata) succeeds, the
adapter never raises — exceptions during the four suffix attempts are
swallowed; and if the primary series is empty and every suffix attempt raises
or yields no data, the empty series with the primary metadata is returned, and
a cache miss stores exactly that empty result. An exception in the primary
fetch itself, however, propagates (see the counterexample). -/
theorem adapter_exception_policy (src : Source) (ticker periodo : String)
    (df0 : List ℚ) (info0 : Info)
    (hh : src.history ticker periodo = .ok df0) (hi : src.info ticker = .ok info0) :
    (∃ r, fetch_data src ticker periodo = .ok r)
    ∧ (df0 = [] →
        (∀ s ∈ suffissi, src.history (ticker ++ s) periodo = .error () ∨
          src.history (ticker ++ s) periodo = .ok []) →
        fetch_data src ticker periodo =
          .ok (([], info0), ticker :: (tryFallback src ticker periodo suffissi [] info0).2)
        ∧ (∀ cache now, cacheLookup cache (ticker ++ "_" ++ periodo) = none →
            get_cached_data src cache now ticker periodo =
              .ok ((([], info0),
                  ticker :: (tryFallback src ticker periodo suffissi [] info0).2),
                cacheStore cache (ticker ++ "_" ++ periodo) ⟨[], info0, now⟩))) := by
  constructor
  · unfold fetch_data
    simp only [hh, hi]
    by_cases hd : df0.isEmpty
    · rw [if_pos hd]
      exact ⟨_, rfl⟩
    · rw [if_neg hd]
      exact ⟨_, rfl⟩
  · intro hdf hfail
    subst hdf
    have htf := tryFallback_all_fail src ticker periodo info0 suffissi hfail
    have hfd : fetch_data src ticker periodo =
        .ok (([], info0),
          ticker :: (tryFallback src ticker periodo suffissi [] info0).2) := by
      unfold fetch_data
      simp only [hh, hi, List.isEmpty_nil, if_true]
      rw [htf]
    refine ⟨hfd, ?_⟩
    intro cache now hnone
    unfold get_cached_data
    simp only [hnone]
    unfold fetchStore
    simp only [hfd]

/-- Witness for the amended C2: an oracle that always returns empty series
makes the adapter return the empty series with the primary metadata, without
raising. -/
theorem adapter_exception_policy_witness :
    fetch_data srcAllEmpty "NODATA" "2y" =
      .ok (([], [("quoteType", "NONE")]),
        "NODATA" :: (tryFallback srcAllEmpty "NODATA" "2y" suffissi []
          [("quoteType", "NONE")]).2) := by
  have h := adapter_exception_policy srcAllEmpty "NODATA" "2y" [] [("quoteType", "NONE")]
    rfl rfl
  exact (h.2 rfl (fun s _ => Or.inr rfl)).1

end Financial
